import Mathlib

/-!
Verification of the Academic Workflow Suite client SDK and feedback
formatter plugin against their specification.

The Python sources embedded here are:
  * examples/api/python/awap_sdk/__init__.py  (the workflow client SDK)
  * examples/plugins/custom-feedback-formatter/plugin.py  (the formatter)

Modelling conventions:
  * Python/JSON dynamic values are the inductive `JVal` (null, booleans,
    integers, strings, arrays, objects).  Numeric values are modelled as
    integers; the repository only ever produces integral scores and the
    float literal `0.0`, which is modelled as the integer `0`.
  * Python exceptions are the inductive `PyExn`; fallible code runs in
    `Except PyExn`.  The order of monadic binds follows the evaluation
    order of the Python source line by line.
  * HTTP exchanges are explicit: a server is a function from `Request`
    to `HttpResult`, and each client operation also returns the list of
    requests it issued, so "no network call is made" is a statement
    about that list.
  * Wall-clock time in the polling loop is idealised: each poll is
    instantaneous and each sleep takes exactly `poll_interval` seconds,
    so the elapsed time at the i-th loop iteration is `i * poll_interval`.
    The loop consumes explicit fuel; fuel exhaustion models divergence.
-/

namespace Awap

/-- Opening curly brace character, named like the other delimiter
constants the serializer, parser and templates share. -/
def lbraceC : Char := Char.ofNat 123

/-- Closing curly brace character. -/
def rbraceC : Char := Char.ofNat 125

/-- Double-quote character. -/
def quoteC : Char := Char.ofNat 34

/-- Backslash character. -/
def backslashC : Char := Char.ofNat 92

/-- Single-quote character. -/
def aposC : Char := Char.ofNat 39

/-- A dynamic Python/JSON value: everything the SDK and the formatter
pass around as `dict`/`list`/`str`/`int`/`bool`/`None`. -/
inductive JVal where
  | null
  | bool (b : Bool)
  | num (n : Int)
  | str (s : String)
  | arr (xs : List JVal)
  | obj (kvs : List (String × JVal))
deriving Repr

/-- Python exceptions raised by the embedded code. `awapAPIError` and
`awapTimeout` model the SDK's `AwapAPIError` and `AwapTimeoutError`;
the rest model the builtin `FileNotFoundError`, `KeyError`,
`AttributeError` and `TypeError`. -/
inductive PyExn where
  | awapAPIError (msg : String) (status_code : Option Nat)
  | awapTimeout (msg : String)
  | fileNotFound (msg : String)
  | keyError (key : String)
  | attributeError (msg : String)
  | typeError (msg : String)
deriving Repr, DecidableEq

/-- First-match association-list lookup: Python `dict` access on the
insertion-ordered key/value list (keys are unique in a real dict, so
first match is the dict's value). -/
def jlookup : List (String × JVal) → String → Option JVal
  | [], _ => none
  | (k, v) :: kvs, key => if k = key then some v else jlookup kvs key

/-- Python truthiness of a value (`bool(v)`): `None`, `False`, `0`, the
empty string, the empty list and the empty dict are falsy. -/
def pyTruthy : JVal → Bool
  | .null => false
  | .bool b => b
  | .num n => n ≠ 0
  | .str s => s ≠ ""
  | .arr xs => !xs.isEmpty
  | .obj kvs => !kvs.isEmpty

/-- Python `v[key]` on a dynamic value: `KeyError` on a dict without the
key, `TypeError` when the value is not a dict at all. -/
def jindex (v : JVal) (key : String) : Except PyExn JVal :=
  match v with
  | .obj kvs =>
      match jlookup kvs key with
      | some x => .ok x
      | none => .error (.keyError key)
  | _ => .error (.typeError "value is not subscriptable")

/-- Python `v.get(key)` (default `None` is reported as `none`):
`AttributeError` when `v` is not a dict. -/
def pyGetOpt (v : JVal) (key : String) : Except PyExn (Option JVal) :=
  match v with
  | .obj kvs => .ok (jlookup kvs key)
  | _ => .error (.attributeError "value has no attribute get")

/-- Python `v.get(key, dflt)`: `AttributeError` when `v` is not a dict. -/
def pyGetD (v : JVal) (key : String) (dflt : JVal) : Except PyExn JVal :=
  match v with
  | .obj kvs => .ok ((jlookup kvs key).getD dflt)
  | _ => .error (.attributeError "value has no attribute get")

/-- Python iteration `for x in v`: lists yield their elements, strings
yield their characters as one-character strings, dicts yield their keys;
numbers, booleans and `None` raise `TypeError`. -/
def jiter : JVal → Except PyExn (List JVal)
  | .arr xs => .ok xs
  | .str s => .ok (s.toList.map (fun c => .str (String.mk [c])))
  | .obj kvs => .ok (kvs.map (fun kv => .str kv.1))
  | _ => .error (.typeError "value is not iterable")

/-- Escape one character the way Python `repr` quotes string contents
(backslash, quote, the common control characters by name, remaining
control characters as hex escapes; other characters stand for
themselves). -/
def pyEscChar (c : Char) : List Char :=
  if c = backslashC then [backslashC, backslashC]
  else if c = aposC then [backslashC, aposC]
  else if c = Char.ofNat 10 then [backslashC, 'n']
  else if c = Char.ofNat 13 then [backslashC, 'r']
  else if c = Char.ofNat 9 then [backslashC, 't']
  else if c.toNat < 32 then
    [backslashC, 'x', Nat.digitChar (c.toNat / 16), Nat.digitChar (c.toNat % 16)]
  else [c]

/-- Escape a character list with `pyEscChar`. -/
def pyEscList : List Char → List Char
  | [] => []
  | c :: cs => pyEscChar c ++ pyEscList cs

/-- Python `repr` of a string: single-quoted with escapes. -/
def pyQuote (s : String) : String :=
  String.mk (aposC :: (pyEscList s.toList ++ [aposC]))

mutual
/-- Python `str(v)`, as used by f-string interpolation in the sources:
strings stand for themselves, other values print as their `repr`. -/
def pyStr : JVal → String
  | .null => "None"
  | .bool true => "True"
  | .bool false => "False"
  | .num n => toString n
  | .str s => s
  | .arr xs => "[" ++ pyStrItems xs ++ "]"
  | .obj kvs => "\x7b" ++ pyStrFields kvs ++ "\x7d"
/-- Python `repr(v)`: like `pyStr` but strings are quoted. -/
def pyRepr : JVal → String
  | .null => "None"
  | .bool true => "True"
  | .bool false => "False"
  | .num n => toString n
  | .str s => pyQuote s
  | .arr xs => "[" ++ pyStrItems xs ++ "]"
  | .obj kvs => "\x7b" ++ pyStrFields kvs ++ "\x7d"
/-- Comma-separated `repr`s of list elements. -/
def pyStrItems : List JVal → String
  | [] => ""
  | [x] => pyRepr x
  | x :: xs => pyRepr x ++ ", " ++ pyStrItems xs
/-- Comma-separated `repr`ed key/value pairs of a dict. -/
def pyStrFields : List (String × JVal) → String
  | [] => ""
  | [(k, v)] => pyQuote k ++ ": " ++ pyRepr v
  | (k, v) :: kvs => pyQuote k ++ ": " ++ pyRepr v ++ ", " ++ pyStrFields kvs
end

/-! ### The JSON serializer

`dumps` models Python `json.dumps(v, indent=2)` as called by the
formatter's `_format_json`: items one per line, indented two spaces per
level, `": "` after keys, empty containers on one line.  Strings are
escaped as Python does (quote, backslash, named control escapes, other
control characters as `\u00XX`); characters at and above `0x7f` are kept
as themselves (the `ensure_ascii` transcription variant, which changes
only the transport encoding, not which values round-trip). -/

/-- Indentation for nesting level `n` under `indent=2`. -/
def indentC (n : Nat) : List Char := List.replicate (2 * n) ' '

/-- Lowercase hexadecimal digit character for `n < 16`. -/
def hexLowerChar (n : Nat) : Char :=
  if n < 10 then Char.ofNat (48 + n) else Char.ofNat (87 + n)

/-- JSON escape of one character. -/
def escJChar (c : Char) : List Char :=
  if c = quoteC then [backslashC, quoteC]
  else if c = backslashC then [backslashC, backslashC]
  else if c = Char.ofNat 10 then [backslashC, 'n']
  else if c = Char.ofNat 9 then [backslashC, 't']
  else if c = Char.ofNat 13 then [backslashC, 'r']
  else if c = Char.ofNat 8 then [backslashC, 'b']
  else if c = Char.ofNat 12 then [backslashC, 'f']
  else if c.toNat < 32 then
    [backslashC, 'u', '0', '0', hexLowerChar (c.toNat / 16), hexLowerChar (c.toNat % 16)]
  else [c]

/-- JSON escape of a character list. -/
def escJList : List Char → List Char
  | [] => []
  | c :: cs => escJChar c ++ escJList cs

/-- A JSON string literal: quote, escaped contents, quote. -/
def jquote (s : String) : List Char := quoteC :: (escJList s.toList ++ [quoteC])

/-- Decimal digit characters of a natural number, most significant first. -/
def natDigs (n : Nat) : List Char :=
  if _h : n < 10 then [Nat.digitChar n]
  else natDigs (n / 10) ++ [Nat.digitChar (n % 10)]
termination_by n
decreasing_by exact Nat.div_lt_self (by omega) (by omega)

/-- Decimal characters of an integer, as printed by `json.dumps`. -/
def intChars (i : Int) : List Char :=
  (if i < 0 then ['-'] else []) ++ natDigs i.natAbs

mutual
/-- Characters of `json.dumps(v, indent=2)` with the ambient nesting
level `lvl` (the top-level call uses `lvl = 0`). -/
def dumpVal : JVal → Nat → List Char
  | .null, _ => ['n', 'u', 'l', 'l']
  | .bool true, _ => ['t', 'r', 'u', 'e']
  | .bool false, _ => ['f', 'a', 'l', 's', 'e']
  | .num n, _ => intChars n
  | .str s, _ => jquote s
  | .arr [], _ => ['[', ']']
  | .arr (x :: xs), lvl =>
      '[' :: '\n' :: (indentC (lvl + 1) ++ dumpVal x (lvl + 1) ++ dumpItems xs (lvl + 1)
        ++ '\n' :: (indentC lvl ++ [']']))
  | .obj [], _ => [lbraceC, rbraceC]
  | .obj ((k, v) :: kvs), lvl =>
      lbraceC :: '\n' :: (indentC (lvl + 1) ++ jquote k
        ++ ':' :: ' ' :: (dumpVal v (lvl + 1) ++ dumpFields kvs (lvl + 1))
        ++ '\n' :: (indentC lvl ++ [rbraceC]))
/-- Remaining array items, each preceded by `",\n"` and indentation. -/
def dumpItems : List JVal → Nat → List Char
  | [], _ => []
  | x :: xs, lvl => ',' :: '\n' :: (indentC lvl ++ dumpVal x lvl ++ dumpItems xs lvl)
/-- Remaining object members, each preceded by `",\n"` and indentation. -/
def dumpFields : List (String × JVal) → Nat → List Char
  | [], _ => []
  | (k, v) :: kvs, lvl =>
      ',' :: '\n' :: (indentC lvl ++ jquote k
        ++ ':' :: ' ' :: (dumpVal v lvl ++ dumpFields kvs lvl))
end

/-- Python `json.dumps(v, indent=2)`. -/
def dumps (v : JVal) : String := String.mk (dumpVal v 0)

/-! ### The feedback formatter plugin

Each `_format_*` method of `FeedbackFormatterPlugin` is a function from
the results dict to `Except PyExn String`; the monadic bind order is the
field-access order of the Python source, so the first missing field is
the one whose `KeyError` surfaces. -/

/-- Markdown bullet lines, one `"- item"` line per list element. -/
def mdBullets : List JVal → String
  | [] => ""
  | x :: xs => "- " ++ pyStr x ++ "\n" ++ mdBullets xs

/-- The plugin's `_format_markdown`. -/
def format_markdown (results : JVal) : Except PyExn String := do
  let sid ← jindex results "student_id"
  let marked ← jindex results "marked_at"
  let score ← jindex results "score"
  let grade ← jindex results "grade"
  let fb1 ← jindex results "feedback"
  let summary ← jindex fb1 "summary"
  let fb2 ← jindex results "feedback"
  let strengthsV ← jindex fb2 "strengths"
  let strengths ← jiter strengthsV
  let fb3 ← jindex results "feedback"
  let areasV ← jindex fb3 "areas_for_improvement"
  let areas ← jiter areasV
  pure ("# Assignment Feedback\n\n**Student ID:** " ++ pyStr sid
    ++ "\n**Date:** " ++ pyStr marked
    ++ "\n\n## Grade\n\n**Score:** " ++ pyStr score
    ++ "/100\n**Grade:** " ++ pyStr grade
    ++ "\n\n## Summary\n\n" ++ pyStr summary
    ++ "\n\n## Strengths\n\n" ++ mdBullets strengths
    ++ "\n## Areas for Improvement\n\n" ++ mdBullets areas)

/-- HTML list-item lines of the plugin's strengths/areas loops. -/
def htmlItems : List JVal → String
  | [] => ""
  | x :: xs => "            <li>" ++ pyStr x ++ "</li>\n" ++ htmlItems xs

/-- The plugin's `_format_html`.  The CSS braces of the template are the
escaped `\x7b`/`\x7d` characters. -/
def format_html (results : JVal) : Except PyExn String := do
  let sid ← jindex results "student_id"
  let marked ← jindex results "marked_at"
  let grade ← jindex results "grade"
  let score ← jindex results "score"
  let fb1 ← jindex results "feedback"
  let summary ← jindex fb1 "summary"
  let fb2 ← jindex results "feedback"
  let strengthsV ← jindex fb2 "strengths"
  let strengths ← jiter strengthsV
  let fb3 ← jindex results "feedback"
  let areasV ← jindex fb3 "areas_for_improvement"
  let areas ← jiter areasV
  pure ("\n<!DOCTYPE html>\n<html>\n<head>\n    <title>Assignment Feedback</title>\n    <style>\n        body \x7b font-family: Arial, sans-serif; max-width: 800px; margin: 0 auto; padding: 20px; \x7d\n        h1 \x7b color: #333; \x7d\n        .grade \x7b font-size: 2em; color: #4CAF50; \x7d\n        .section \x7b margin: 20px 0; \x7d\n        ul \x7b list-style-type: disc; margin-left: 20px; \x7d\n    </style>\n</head>\n<body>\n    <h1>Assignment Feedback</h1>\n    <p><strong>Student ID:</strong> "
    ++ pyStr sid
    ++ "</p>\n    <p><strong>Date:</strong> " ++ pyStr marked
    ++ "</p>\n\n    <div class=\"section\">\n        <h2>Grade</h2>\n        <p class=\"grade\">"
    ++ pyStr grade ++ " (" ++ pyStr score
    ++ "/100)</p>\n    </div>\n\n    <div class=\"section\">\n        <h2>Summary</h2>\n        <p>"
    ++ pyStr summary
    ++ "</p>\n    </div>\n\n    <div class=\"section\">\n        <h2>Strengths</h2>\n        <ul>\n"
    ++ htmlItems strengths
    ++ "        </ul>\n    </div>\n\n    <div class=\"section\">\n        <h2>Areas for Improvement</h2>\n        <ul>\n"
    ++ htmlItems areas
    ++ "        </ul>\n    </div>\n</body>\n</html>\n")

/-- Python string concatenation `s + v`: `TypeError` unless `v` is a
string (`_format_latex` splices fields by `+`, not by f-string). -/
def pyConcat (s : String) (v : JVal) : Except PyExn String :=
  match v with
  | .str t => .ok (s ++ t)
  | _ => .error (.typeError "can only concatenate str to str")

/-- LaTeX item lines of the plugin's strengths/areas loops. -/
def texItems : List JVal → String
  | [] => ""
  | x :: xs => "    \\item " ++ pyStr x ++ "\n" ++ texItems xs

/-- The plugin's `_format_latex`.  LaTeX braces of the template are the
escaped `\x7b`/`\x7d` characters; note the access order, `marked_at`
first, and the bare `+` concatenations that require string fields. -/
def format_latex (results : JVal) : Except PyExn String := do
  let marked ← jindex results "marked_at"
  let s1 ← pyConcat "\\documentclass\x7barticle\x7d\n\\usepackage[utf8]\x7binputenc\x7d\n\\usepackage\x7benumitem\x7d\n\n\\title\x7bAssignment Feedback\x7d\n\\author\x7bAcademic Workflow Suite\x7d\n\\date\x7b" marked
  let sid ← jindex results "student_id"
  let s2 ← pyConcat (s1 ++ "\x7d\n\n\\begin\x7bdocument\x7d\n\n\\maketitle\n\n\\section*\x7bStudent Information\x7d\n\\textbf\x7bStudent ID:\x7d ") sid
  let score ← jindex results "score"
  let grade ← jindex results "grade"
  let s3 ← pyConcat (s2 ++ "\n\n\\section*\x7bGrade\x7d\n\\textbf\x7bScore:\x7d " ++ pyStr score
      ++ "/100 \\\\\n\\textbf\x7bGrade:\x7d ") grade
  let fb1 ← jindex results "feedback"
  let summary ← jindex fb1 "summary"
  let s4 ← pyConcat (s3 ++ "\n\n\\section*\x7bSummary\x7d\n") summary
  let fb2 ← jindex results "feedback"
  let strengthsV ← jindex fb2 "strengths"
  let strengths ← jiter strengthsV
  let fb3 ← jindex results "feedback"
  let areasV ← jindex fb3 "areas_for_improvement"
  let areas ← jiter areasV
  pure (s4 ++ "\n\n\\section*\x7bStrengths\x7d\n\\begin\x7bitemize\x7d\n"
    ++ texItems strengths
    ++ "\\end\x7bitemize\x7d\n\n\\section*\x7bAreas for Improvement\x7d\n\\begin\x7bitemize\x7d\n"
    ++ texItems areas
    ++ "\\end\x7bitemize\x7d\n\n\\end\x7bdocument\x7d\n")

/-- Fifty equals signs, the plain-text header rule. -/
def eqBar : String := String.mk (List.replicate 50 '=')

/-- Fifty dashes, the plain-text section rule. -/
def dashBar : String := String.mk (List.replicate 50 '-')

/-- Numbered lines `"n. item"` starting at `n`, as produced by
`enumerate(..., 1)` in `_format_plain`. -/
def enumLines1 (n : Nat) : List JVal → String
  | [] => ""
  | x :: xs => toString n ++ ". " ++ pyStr x ++ "\n" ++ enumLines1 (n + 1) xs

/-- The plugin's `_format_plain`. -/
def format_plain (results : JVal) : Except PyExn String := do
  let sid ← jindex results "student_id"
  let marked ← jindex results "marked_at"
  let grade ← jindex results "grade"
  let score ← jindex results "score"
  let fb1 ← jindex results "feedback"
  let summary ← jindex fb1 "summary"
  let fb2 ← jindex results "feedback"
  let strengthsV ← jindex fb2 "strengths"
  let strengths ← jiter strengthsV
  let fb3 ← jindex results "feedback"
  let areasV ← jindex fb3 "areas_for_improvement"
  let areas ← jiter areasV
  pure ("ASSIGNMENT FEEDBACK\n" ++ eqBar
    ++ "\n\nStudent ID: " ++ pyStr sid
    ++ "\nDate: " ++ pyStr marked
    ++ "\n\nGRADE: " ++ pyStr grade ++ " (" ++ pyStr score
    ++ "/100)\n\nSUMMARY\n" ++ dashBar ++ "\n" ++ pyStr summary
    ++ "\n\nSTRENGTHS\n" ++ dashBar ++ "\n" ++ enumLines1 1 strengths
    ++ "\nAREAS FOR IMPROVEMENT\n" ++ dashBar ++ "\n" ++ enumLines1 1 areas)

/-- The plugin's `_format_json`: `json.dumps(results, indent=2)`. -/
def format_json (results : JVal) : Except PyExn String := .ok (dumps results)

/-- The plugin's `format_feedback`: dispatch on the configured format
type over the formatter table, with `_format_markdown` as the
`formatters.get(..., self._format_markdown)` fallback. -/
def format_feedback (format_type : String) (results : JVal) : Except PyExn String :=
  if format_type = "markdown" then format_markdown results
  else if format_type = "html" then format_html results
  else if format_type = "latex" then format_latex results
  else if format_type = "plain" then format_plain results
  else if format_type = "json" then format_json results
  else format_markdown results

/-! ### The workflow client SDK (`awap_sdk/__init__.py`)

A server is a function from requests to HTTP outcomes; every client
operation returns the list of requests it issued alongside its result.
`procHttp` models `AwapClient._request`: `raise_for_status` turns any
4xx/5xx response into `AwapAPIError` carrying the status code, and a
transport exception into `AwapAPIError` without one (the transport
library's message text is abstracted to the status code); response
bodies arrive as already-parsed JSON values. -/

/-- One HTTP exchange of the workflow client. -/
inductive Request where
  | upload (file_path student_id rubric : String)
  | mark (tma_id rubric : String) (auto_feedback : Bool)
  | jobStatus (job_id : String)
  | results (tma_id : String)
deriving Repr, DecidableEq

/-- Outcome of one HTTP exchange: a response with a status code and a
JSON body, or a transport-level failure. -/
inductive HttpResult where
  | resp (status : Nat) (body : JVal)
  | transportError (msg : String)

/-- The SDK's `_request` error translation. -/
def procHttp : HttpResult → Except PyExn JVal
  | .transportError m => .error (.awapAPIError ("Request failed: " ++ m) none)
  | .resp code body =>
      if 400 ≤ code ∧ code < 600 then
        .error (.awapAPIError ("API request failed: " ++ toString code) (some code))
      else .ok body

/-- The SDK's `Feedback` dataclass.  Field values are kept as the
dynamic values the Python code stores without conversion. -/
structure Feedback where
  summary : JVal
  strengths : JVal
  areas_for_improvement : JVal
  detailed_comments : JVal
deriving Repr

/-- The SDK's `MarkingResult` dataclass. -/
structure MarkingResult where
  tma_id : JVal
  student_id : JVal
  score : JVal
  grade : JVal
  feedback : Feedback
  marked_at : JVal
deriving Repr

/-- The SDK's `MarkingResult.from_dict`: feedback subfields default via
`.get`, top-level fields are indexed directly (so an absent one raises
`KeyError`).  The bind order matches the source: the feedback object is
built first, then the constructor arguments are evaluated in order. -/
def from_dict (data : JVal) : Except PyExn MarkingResult := do
  let feedback_data ← pyGetD data "feedback" (.obj [])
  let fsummary ← pyGetD feedback_data "summary" (.str "")
  let fstrengths ← pyGetD feedback_data "strengths" (.arr [])
  let fareas ← pyGetD feedback_data "areas_for_improvement" (.arr [])
  let fcomments ← pyGetD feedback_data "detailed_comments" (.arr [])
  let t ← jindex data "tma_id"
  let sid ← jindex data "student_id"
  let sc ← jindex data "score"
  let g ← jindex data "grade"
  let m ← jindex data "marked_at"
  pure ⟨t, sid, sc, g, ⟨fsummary, fstrengths, fareas, fcomments⟩, m⟩

/-- The SDK's `upload_tma`.  `fsys` is the set of paths that exist on
the local filesystem (`os.path.exists`); an absent path raises
`FileNotFoundError` with an empty request trace.  The handle check is
Python truthiness: `if not tma_id: raise`. -/
def upload_tma (fsys : List String) (server : Request → HttpResult)
    (file_path student_id rubric : String) : Except PyExn JVal × List Request :=
  if fsys.contains file_path then
    let req := Request.upload file_path student_id rubric
    (match procHttp (server req) with
     | .error e => .error e
     | .ok body =>
         match pyGetOpt body "tma_id" with
         | .error e => .error e
         | .ok (some v) =>
             if pyTruthy v then .ok v
             else .error (.awapAPIError "No TMA ID returned from upload" none)
         | .ok none => .error (.awapAPIError "No TMA ID returned from upload" none),
     [req])
  else
    (.error (.fileNotFound ("TMA file not found: " ++ file_path)), [])

/-- The SDK's `submit_for_marking`. -/
def submit_for_marking (server : Request → HttpResult)
    (tma_id rubric : String) (auto_feedback : Bool) : Except PyExn JVal × List Request :=
  let req := Request.mark tma_id rubric auto_feedback
  (match procHttp (server req) with
   | .error e => .error e
   | .ok body =>
       match pyGetOpt body "job_id" with
       | .error e => .error e
       | .ok (some v) =>
           if pyTruthy v then .ok v
           else .error (.awapAPIError "No job ID returned" none)
       | .ok none => .error (.awapAPIError "No job ID returned" none),
   [req])

/-- The SDK's `get_job_status`. -/
def get_job_status (server : Request → HttpResult) (job_id : String) :
    Except PyExn JVal × List Request :=
  (procHttp (server (.jobStatus job_id)), [.jobStatus job_id])

/-- The SDK's `get_results`. -/
def get_results (server : Request → HttpResult) (tma_id : String) :
    Except PyExn MarkingResult × List Request :=
  let req := Request.results tma_id
  (match procHttp (server req) with
   | .error e => .error e
   | .ok body => from_dict body,
   [req])

/-- Outcome of the polling loop: a normal return carrying the Python
return value (the status), a raised exception, or fuel exhaustion
(modelling a loop that never resolves).  `npolls` counts the status
requests issued, `elapsed` the idealised wall-clock seconds since
invocation at the moment the loop resolved. -/
inductive WaitResult where
  | returned (status : JVal) (npolls elapsed : Nat)
  | raised (e : PyExn) (npolls elapsed : Nat)
  | fuelExhausted
deriving Repr

/-- Loop body of `wait_for_completion`.  Iteration `i` runs at elapsed
time `i * poll_interval` (polls are instantaneous, sleeps exact); the
deadline check `elapsed > timeout` runs at the top of each iteration,
before that iteration's poll.  `polls i` is the server's response to the
i-th `GET /api/v1/jobs/...`. -/
def waitLoop (polls : Nat → HttpResult) (poll_interval timeout : Nat) :
    Nat → Nat → WaitResult
  | 0, _ => .fuelExhausted
  | fuel + 1, i =>
    if timeout < i * poll_interval then
      .raised (.awapTimeout ("Job did not complete within " ++ toString timeout ++ " seconds"))
        i (i * poll_interval)
    else
      match procHttp (polls i) with
      | .error e => .raised e (i + 1) (i * poll_interval)
      | .ok status_data =>
          match pyGetOpt status_data "status" with
          | .error e => .raised e (i + 1) (i * poll_interval)
          | .ok (some (JVal.str s)) =>
              if s = "completed" then .returned (.str s) (i + 1) (i * poll_interval)
              else if s = "failed" then
                match pyGetD status_data "error" (.str "Unknown error") with
                | .ok errv =>
                    .raised (.awapAPIError ("Job failed: " ++ pyStr errv) none) (i + 1)
                      (i * poll_interval)
                | .error e => .raised e (i + 1) (i * poll_interval)
              else waitLoop polls poll_interval timeout fuel (i + 1)
          | .ok _ => waitLoop polls poll_interval timeout fuel (i + 1)

/-- Python `timeout or self.timeout`: an absent or falsy (zero) argument
falls back to the client timeout. -/
def effTimeout : Option Nat → Nat → Nat
  | some t, ct => if t = 0 then ct else t
  | none, ct => ct

/-- The SDK's `wait_for_completion`. -/
def wait_for_completion (polls : Nat → HttpResult) (poll_interval : Nat)
    (timeout : Option Nat) (client_timeout fuel : Nat) : WaitResult :=
  waitLoop polls poll_interval (effTimeout timeout client_timeout) fuel 0

/-- The job-status requests issued by `n` polls on `job_id`. -/
def pollTrace (job_id : String) (n : Nat) : List Request :=
  (List.range n).map (fun _ => .jobStatus job_id)

/-- The SDK's `mark_tma` convenience method: upload, submit, and — only
when `wait` is true — poll to completion (default `poll_interval=5`,
`timeout=None`) and fetch results.  When `wait` is false it returns the
placeholder `MarkingResult` built from literals in the source. -/
def mark_tma (fsys : List String) (server : Request → HttpResult)
    (polls : Nat → HttpResult) (file_path student_id rubric : String)
    (wait : Bool) (client_timeout fuel : Nat) : Except PyExn MarkingResult × List Request :=
  match upload_tma fsys server file_path student_id rubric with
  | (.error e, tr) => (.error e, tr)
  | (.ok tma_id, tr1) =>
    match submit_for_marking server (pyStr tma_id) rubric true with
    | (.error e, tr2) => (.error e, tr1 ++ tr2)
    | (.ok job_id, tr2) =>
      if wait then
        match wait_for_completion polls 5 none client_timeout fuel with
        | .returned _ n _ =>
            match get_results server (pyStr tma_id) with
            | (res, tr3) => (res, tr1 ++ tr2 ++ pollTrace (pyStr job_id) n ++ tr3)
        | .raised e n _ => (.error e, tr1 ++ tr2 ++ pollTrace (pyStr job_id) n)
        | .fuelExhausted => (.error (.awapTimeout "poll loop fuel exhausted"), tr1 ++ tr2)
      else
        (.ok ⟨tma_id, .str student_id, .num 0, .str "",
              ⟨.str "", .arr [], .arr [], .arr []⟩, .str ""⟩,
         tr1 ++ tr2)

/-! ### The JSON parser

`loads` models Python `json.loads` on the document class produced by the
serializer: a strict recursive-descent parser over the character list,
skipping whitespace between tokens, decoding string escapes (including
`\uXXXX`), rejecting raw control characters in strings and trailing
input after the document. -/

/-- JSON whitespace (space, newline, tab, carriage return). -/
def isWsC (c : Char) : Bool :=
  c.toNat = 32 || c.toNat = 10 || c.toNat = 9 || c.toNat = 13

/-- Drop leading JSON whitespace. -/
def dropWs : List Char → List Char
  | [] => []
  | c :: cs => if isWsC c then dropWs cs else c :: cs

/-- ASCII decimal digit. -/
def isDigitC (c : Char) : Bool := 48 ≤ c.toNat && c.toNat ≤ 57

/-- Input that cannot extend a just-parsed number: empty, or headed by
a non-digit. -/
def numOk : List Char → Bool
  | [] => true
  | c :: _ => !(isDigitC c)

/-- Value of a hexadecimal digit character, either case. -/
def hexValC (c : Char) : Option Nat :=
  if '0' ≤ c && c ≤ '9' then some (c.toNat - 48)
  else if 'a' ≤ c && c ≤ 'f' then some (c.toNat - 87)
  else if 'A' ≤ c && c ≤ 'F' then some (c.toNat - 55)
  else none

/-- Decode a single-character JSON escape. -/
def unescC (e : Char) : Option Char :=
  if e = quoteC then some quoteC
  else if e = backslashC then some backslashC
  else if e = '/' then some '/'
  else if e = 'n' then some '\n'
  else if e = 't' then some '\t'
  else if e = 'r' then some '\r'
  else if e = 'b' then some (Char.ofNat 8)
  else if e = 'f' then some (Char.ofNat 12)
  else none

/-- Parse the body of a string literal after the opening quote,
accumulating decoded characters in reverse. -/
def pStrBody (acc : List Char) : List Char → Option (String × List Char)
  | [] => none
  | c :: cs =>
    if c = quoteC then some (String.mk acc.reverse, cs)
    else if c = backslashC then
      match cs with
      | [] => none
      | e :: cs2 =>
        if e = 'u' then
          match cs2 with
          | a :: b :: c3 :: d :: cs3 =>
            match hexValC a, hexValC b, hexValC c3, hexValC d with
            | some va, some vb, some vc, some vd =>
                pStrBody (Char.ofNat (((va * 16 + vb) * 16 + vc) * 16 + vd) :: acc) cs3
            | _, _, _, _ => none
          | _ => none
        else
          match unescC e with
          | some ch => pStrBody (ch :: acc) cs2
          | none => none
    else if c.toNat < 32 then none
    else pStrBody (c :: acc) cs

/-- Split off the leading run of decimal digits. -/
def takeDigs : List Char → List Char × List Char
  | [] => ([], [])
  | c :: cs =>
      if isDigitC c then
        let p := takeDigs cs
        (c :: p.1, p.2)
      else ([], c :: cs)

/-- Numeric value of a digit run. -/
def digsVal (ds : List Char) : Nat := ds.foldl (fun a c => a * 10 + (c.toNat - 48)) 0

/-- Parse an integer literal: optional minus sign, then a nonempty digit
run. -/
def pNum : List Char → Option (Int × List Char)
  | [] => none
  | c :: cs =>
    if c = '-' then
      match takeDigs cs with
      | (d :: ds, rest) => some (-(Int.ofNat (digsVal (d :: ds))), rest)
      | ([], _) => none
    else
      match takeDigs (c :: cs) with
      | (d :: ds, rest) => some (Int.ofNat (digsVal (d :: ds)), rest)
      | ([], _) => none

mutual
/-- Parse one JSON value (fuel-indexed; fuel exceeding the input
length always suffices). -/
def pVal : Nat → List Char → Option (JVal × List Char)
  | 0, _ => none
  | fuel + 1, cs =>
    match dropWs cs with
    | [] => none
    | c :: r =>
      if c = 'n' then
        match r with
        | 'u' :: 'l' :: 'l' :: r2 => some (.null, r2)
        | _ => none
      else if c = 't' then
        match r with
        | 'r' :: 'u' :: 'e' :: r2 => some (.bool true, r2)
        | _ => none
      else if c = 'f' then
        match r with
        | 'a' :: 'l' :: 's' :: 'e' :: r2 => some (.bool false, r2)
        | _ => none
      else if c = quoteC then
        match pStrBody [] r with
        | some (s, r2) => some (.str s, r2)
        | none => none
      else if c = '[' then
        match dropWs r with
        | [] => none
        | c2 :: r2 =>
          if c2 = ']' then some (.arr [], r2)
          else
            match pItems fuel r with
            | some (xs, r3) => some (.arr xs, r3)
            | none => none
      else if c = lbraceC then
        match dropWs r with
        | [] => none
        | c2 :: r2 =>
          if c2 = rbraceC then some (.obj [], r2)
          else
            match pFields fuel r with
            | some (kvs, r3) => some (.obj kvs, r3)
            | none => none
      else if c = '-' || isDigitC c then
        match pNum (c :: r) with
        | some (n, r2) => some (.num n, r2)
        | none => none
      else none
/-- Parse one or more comma-separated array items up to the closing
bracket. -/
def pItems : Nat → List Char → Option (List JVal × List Char)
  | 0, _ => none
  | fuel + 1, cs =>
    match pVal fuel cs with
    | none => none
    | some (v, r) =>
      match dropWs r with
      | [] => none
      | c :: r2 =>
        if c = ',' then
          match pItems fuel r2 with
          | some (vs, r3) => some (v :: vs, r3)
          | none => none
        else if c = ']' then some ([v], r2)
        else none
/-- Parse one or more comma-separated object members up to the closing
brace. -/
def pFields : Nat → List Char → Option (List (String × JVal) × List Char)
  | 0, _ => none
  | fuel + 1, cs =>
    match dropWs cs with
    | [] => none
    | c :: r =>
      if c = quoteC then
        match pStrBody [] r with
        | none => none
        | some (k, r1) =>
          match dropWs r1 with
          | [] => none
          | c2 :: r2 =>
            if c2 = ':' then
              match pVal fuel r2 with
              | none => none
              | some (v, r3) =>
                match dropWs r3 with
                | [] => none
                | c3 :: r4 =>
                  if c3 = ',' then
                    match pFields fuel r4 with
                    | some (kvs, r5) => some ((k, v) :: kvs, r5)
                    | none => none
                  else if c3 = rbraceC then some ([(k, v)], r4)
                  else none
            else none
      else none
end

/-- Python `json.loads`: parse a complete document and reject trailing
input. -/
def loads (s : String) : Option JVal :=
  match pVal (s.toList.length + 1) s.toList with
  | some (v, r) => if dropWs r = [] then some v else none
  | none => none

/-! ### Concrete test fixtures and behaviour predicates -/

/-- A poll response that never leaves the `running` state. -/
def pendingServer : Nat → HttpResult :=
  fun _ => .resp 200 (.obj [("status", .str "running")])

/-- A poll response reporting `failed` with a remote error message. -/
def failedServer : Nat → HttpResult :=
  fun _ => .resp 200 (.obj [("status", .str "failed"), ("error", .str "disk error")])

/-- A poll response reporting `completed` immediately. -/
def completedServer : Nat → HttpResult :=
  fun _ => .resp 200 (.obj [("status", .str "completed")])

/-- A well-behaved server for the upload/submit/results endpoints. -/
def okServer : Request → HttpResult
  | .upload _ _ _ => .resp 200 (.obj [("tma_id", .str "tma-1")])
  | .mark _ _ _ => .resp 200 (.obj [("job_id", .str "job-1")])
  | .jobStatus _ => .resp 200 (.obj [("status", .str "completed")])
  | .results _ => .resp 200 (.obj [("tma_id", .str "tma-1"), ("student_id", .str "s1"),
      ("score", .num 85), ("grade", .str "B+"), ("marked_at", .str "2026-01-01"),
      ("feedback", .obj [("summary", .str "Good"), ("strengths", .arr [.str "a"]),
        ("areas_for_improvement", .arr [.str "b"]), ("detailed_comments", .arr [])])])

/-- A server whose 2xx responses carry a JSON object without the
expected handle fields. -/
def noHandleServer : Request → HttpResult :=
  fun _ => .resp 200 (.obj [("detail", .str "accepted")])

/-- Member list of a well-formed results record used as a test fixture. -/
def sampleKvs : List (String × JVal) :=
  [("tma_id", .str "tma-1"), ("student_id", .str "s1"), ("score", .num 85),
   ("grade", .str "B+"), ("marked_at", .str "2026-01-01"),
   ("feedback", .obj [("summary", .str "Good"), ("strengths", .arr [.str "a", .str "b"]),
     ("areas_for_improvement", .arr [.str "c"]), ("detailed_comments", .arr [])])]

/-- The fixture record itself. -/
def sampleRec : JVal := .obj sampleKvs

/-- Member list of the fixture record with `student_id` removed. -/
def kvsNoSid : List (String × JVal) :=
  [("tma_id", .str "tma-1"), ("score", .num 85),
   ("grade", .str "B+"), ("marked_at", .str "2026-01-01"),
   ("feedback", .obj [("summary", .str "Good"), ("strengths", .arr [.str "a", .str "b"]),
     ("areas_for_improvement", .arr [.str "c"]), ("detailed_comments", .arr [])])]

/-- The fixture record without its `student_id` field. -/
def recNoSid : JVal := .obj kvsNoSid

/-- A poll outcome on which the `wait_for_completion` loop keeps
polling: the exchange yields a body whose `status` is a string that is
neither `completed` nor `failed`, or no string at all. -/
def nonTerminalResp (h : HttpResult) : Prop :=
  ∃ body, procHttp h = .ok body ∧
    match pyGetOpt body "status" with
    | .ok (some (JVal.str s)) => s ≠ "completed" ∧ s ≠ "failed"
    | .ok _ => True
    | .error _ => False

/-- A poll outcome reporting `failed` with the error message `emsg`. -/
def failedRespWith (h : HttpResult) (emsg : String) : Prop :=
  ∃ kvs, procHttp h = .ok (.obj kvs) ∧
    jlookup kvs "status" = some (.str "failed") ∧
    jlookup kvs "error" = some (.str emsg)

/-- Feedback-field shapes that `from_dict` reads without raising: the
field absent entirely, or present as an object. -/
def fbOk (kvs : List (String × JVal)) : Prop :=
  jlookup kvs "feedback" = none ∨ ∃ fk, jlookup kvs "feedback" = some (.obj fk)

/-! ### Helper lemmas -/

/-- Monadic bind on a successful `Except` computation. -/
theorem except_bind_ok {α β : Type} (a : α) (f : α → Except PyExn β) :
    (Except.ok a >>= f) = f a := rfl

/-- Monadic bind on a failed `Except` computation. -/
theorem except_bind_err {α β : Type} (e : PyExn) (f : α → Except PyExn β) :
    ((Except.error e : Except PyExn α) >>= f) = Except.error e := rfl

/-- The request trace of `upload_tma` is empty or the single upload
request. -/
theorem upload_tma_trace (fsys : List String) (server : Request → HttpResult)
    (p sid rub : String) :
    (upload_tma fsys server p sid rub).2 = []
    ∨ (upload_tma fsys server p sid rub).2 = [Request.upload p sid rub] := by
  by_cases hc : p ∈ fsys
  · right; simp [upload_tma, hc]
  · left; simp [upload_tma, hc]

/-- A response below the 4xx range passes `raise_for_status` and yields
its body. -/
theorem procHttp_ok (code : Nat) (body : JVal) (h4 : code < 400) :
    procHttp (.resp code body) = .ok body := by
  have hno : ¬(400 ≤ code ∧ code < 600) := by omega
  simp [procHttp, hno]

/-- The request trace of `submit_for_marking` is the single mark
request. -/
theorem submit_for_marking_trace (server : Request → HttpResult)
    (tid rub : String) (af : Bool) :
    (submit_for_marking server tid rub af).2 = [Request.mark tid rub af] := rfl

/-- Whenever the polling loop returns normally, the returned status is
the string `completed`. -/
theorem waitLoop_returned_completed (polls : Nat → HttpResult) (pi t : Nat) :
    ∀ fuel i v n e, waitLoop polls pi t fuel i = .returned v n e → v = .str "completed" := by
  intro fuel
  induction fuel with
  | zero => intro i v n e h; simp [waitLoop] at h
  | succ f ih =>
    intro i v n e h
    rw [waitLoop] at h
    repeat' split at h
    all_goals first
      | exact ih _ _ _ _ h
      | simp_all

/-! ### Claim C5 -/

/-- C5: for every file path absent from the local filesystem,
`upload_tma` raises `FileNotFoundError` and issues no HTTP request (the
request trace is empty). -/
theorem c5_upload_missing_file_no_network (fsys : List String)
    (server : Request → HttpResult) (p sid rub : String)
    (hp : fsys.contains p = false) :
    upload_tma fsys server p sid rub =
      (.error (.fileNotFound ("TMA file not found: " ++ p)), []) := by
  have hm : p ∉ fsys := by simpa using hp
  simp [upload_tma, hm]

/-- Witness for C5 at the path of the spec scenario. -/
theorem c5_witness :
    upload_tma ["essay.pdf"] okServer "/no/such/file.pdf" "s1" "default" =
      (.error (.fileNotFound "TMA file not found: /no/such/file.pdf"), []) :=
  c5_upload_missing_file_no_network ["essay.pdf"] okServer "/no/such/file.pdf" "s1" "default"
    (by decide)

/-! ### Claim C6 -/

/-- C6: a 2xx response whose JSON object lacks the expected handle
field makes `upload_tma` (absent `tma_id`) and `submit_for_marking`
(absent `job_id`) raise `AwapAPIError` instead of returning a handle. -/
theorem c6_missing_handle_raises (fsys : List String) (server : Request → HttpResult)
    (p sid rub tid rubs : String) (af : Bool) :
    (∀ code kvs, fsys.contains p = true →
      server (.upload p sid rub) = .resp code (.obj kvs) →
      200 ≤ code → code < 300 → jlookup kvs "tma_id" = none →
      upload_tma fsys server p sid rub =
        (.error (.awapAPIError "No TMA ID returned from upload" none), [.upload p sid rub]))
    ∧ (∀ code kvs,
      server (.mark tid rubs af) = .resp code (.obj kvs) →
      200 ≤ code → code < 300 → jlookup kvs "job_id" = none →
      submit_for_marking server tid rubs af =
        (.error (.awapAPIError "No job ID returned" none), [.mark tid rubs af])) := by
  constructor
  · intro code kvs hfs hsrv h200 h300 hk
    have hm : p ∈ fsys := by simpa using hfs
    simp [upload_tma, hm, hsrv, procHttp_ok code _ (by omega), pyGetOpt, hk]
  · intro code kvs hsrv h200 h300 hk
    simp [submit_for_marking, hsrv, procHttp_ok code _ (by omega), pyGetOpt, hk]

/-- Witness for C6: a 200 response whose body has no handle fields. -/
theorem c6_witness :
    upload_tma ["essay.pdf"] noHandleServer "essay.pdf" "s1" "default" =
      (.error (.awapAPIError "No TMA ID returned from upload" none),
       [.upload "essay.pdf" "s1" "default"])
    ∧ submit_for_marking noHandleServer "tma-1" "default" true =
      (.error (.awapAPIError "No job ID returned" none), [.mark "tma-1" "default" true]) :=
  ⟨(c6_missing_handle_raises ["essay.pdf"] noHandleServer "essay.pdf" "s1" "default"
      "tma-1" "default" true).1 200 [("detail", .str "accepted")]
      (by decide) rfl (by decide) (by decide) rfl,
   (c6_missing_handle_raises ["essay.pdf"] noHandleServer "essay.pdf" "s1" "default"
      "tma-1" "default" true).2 200 [("detail", .str "accepted")]
      rfl (by decide) (by decide) rfl⟩

/-! ### Claim C8 -/

/-- C8: a style outside the closed set dispatches to the markdown
formatter, producing exactly the markdown output on every record. -/
theorem c8_unknown_style_falls_back (ft : String) (r : JVal)
    (h1 : ft ≠ "markdown") (h2 : ft ≠ "html") (h3 : ft ≠ "latex")
    (h4 : ft ≠ "plain") (h5 : ft ≠ "json") :
    format_feedback ft r = format_feedback "markdown" r := by
  simp [format_feedback, h1, h2, h3, h4, h5]

/-- Witness for C8 at the unknown style `xml`. -/
theorem c8_witness :
    format_feedback "xml" sampleRec = format_feedback "markdown" sampleRec :=
  c8_unknown_style_falls_back "xml" sampleRec (by decide) (by decide) (by decide)
    (by decide) (by decide)

/-! ### Claim C9 -/

/-- C9: whenever `wait_for_completion` returns normally, the returned
status is exactly the string `completed`. -/
theorem c9_normal_return_is_completed (polls : Nat → HttpResult)
    (pi : Nat) (tArg : Option Nat) (ct fuel : Nat) (v : JVal) (n e : Nat)
    (h : wait_for_completion polls pi tArg ct fuel = .returned v n e) :
    v = .str "completed" :=
  waitLoop_returned_completed polls pi (effTimeout tArg ct) fuel 0 v n e h

/-- Witness for C9: a first poll reporting `completed` returns
normally, and the theorem pins its value. -/
theorem c9_witness : JVal.str "completed" = JVal.str "completed" :=
  c9_normal_return_is_completed completedServer 5 (some 60) 300 3
    (.str "completed") 1 0 rfl

/-! ### Claim C4 -/

/-- C4: after a successful upload and submit, `mark_tma` with
`wait = false` returns the placeholder result — real `tma_id` and
`student_id`, zero score, empty grade, empty feedback, empty
`marked_at` — and its request trace contains no job-status poll and no
results fetch. -/
theorem c4_no_wait_placeholder (fsys : List String) (server : Request → HttpResult)
    (polls : Nat → HttpResult) (p sid rub : String) (ct fuel : Nat)
    (hdl : JVal) (tr1 : List Request) (j : JVal) (tr2 : List Request)
    (hu : upload_tma fsys server p sid rub = (.ok hdl, tr1))
    (hs : submit_for_marking server (pyStr hdl) rub true = (.ok j, tr2)) :
    mark_tma fsys server polls p sid rub false ct fuel =
      (.ok ⟨hdl, .str sid, .num 0, .str "",
        ⟨.str "", .arr [], .arr [], .arr []⟩, .str ""⟩, tr1 ++ tr2)
    ∧ ∀ req ∈ tr1 ++ tr2, (∀ jid, req ≠ .jobStatus jid) ∧ (∀ t, req ≠ .results t) := by
  have htr1 := upload_tma_trace fsys server p sid rub
  rw [hu] at htr1
  have htr2 := submit_for_marking_trace server (pyStr hdl) rub true
  rw [hs] at htr2
  simp only at htr1 htr2
  constructor
  · simp [mark_tma, hu, hs]
  · intro req hreq
    rw [htr2] at hreq
    rcases htr1 with h1 | h1 <;> rw [h1] at hreq <;> simp at hreq
    · subst hreq
      exact ⟨fun jid => by simp, fun t => by simp⟩
    · rcases hreq with hreq | hreq <;> subst hreq <;>
        exact ⟨fun jid => by simp, fun t => by simp⟩

/-- Witness for C4 against the well-behaved server. -/
theorem c4_witness :
    mark_tma ["essay.pdf"] okServer pendingServer "essay.pdf" "s1" "default" false 300 10 =
      (.ok ⟨.str "tma-1", .str "s1", .num 0, .str "",
        ⟨.str "", .arr [], .arr [], .arr []⟩, .str ""⟩,
       [.upload "essay.pdf" "s1" "default", .mark "tma-1" "default" true]) :=
  (c4_no_wait_placeholder ["essay.pdf"] okServer pendingServer "essay.pdf" "s1" "default"
    300 10 (.str "tma-1") [.upload "essay.pdf" "s1" "default"] (.str "job-1")
    [.mark "tma-1" "default" true] rfl rfl).1

/-! ### Claim C10 -/

/-- C10: `from_dict` is asymmetric about missing fields: an absent
feedback object or absent feedback subfields silently default to empty
strings/lists, while an absent top-level field raises `KeyError` (the
first missing one in constructor-argument order). -/
theorem c10_from_dict_asymmetry (kvs : List (String × JVal)) :
    (jlookup kvs "feedback" = none →
      ∀ a b c d e, jlookup kvs "tma_id" = some a → jlookup kvs "student_id" = some b →
        jlookup kvs "score" = some c → jlookup kvs "grade" = some d →
        jlookup kvs "marked_at" = some e →
        from_dict (.obj kvs) = .ok ⟨a, b, c, d, ⟨.str "", .arr [], .arr [], .arr []⟩, e⟩)
    ∧ (∀ fk, jlookup kvs "feedback" = some (.obj fk) →
      ∀ a b c d e, jlookup kvs "tma_id" = some a → jlookup kvs "student_id" = some b →
        jlookup kvs "score" = some c → jlookup kvs "grade" = some d →
        jlookup kvs "marked_at" = some e →
        from_dict (.obj kvs) = .ok ⟨a, b, c, d,
          ⟨(jlookup fk "summary").getD (.str ""), (jlookup fk "strengths").getD (.arr []),
           (jlookup fk "areas_for_improvement").getD (.arr []),
           (jlookup fk "detailed_comments").getD (.arr [])⟩, e⟩)
    ∧ (fbOk kvs → jlookup kvs "tma_id" = none →
        from_dict (.obj kvs) = .error (.keyError "tma_id"))
    ∧ (fbOk kvs → ∀ a, jlookup kvs "tma_id" = some a →
        jlookup kvs "student_id" = none →
        from_dict (.obj kvs) = .error (.keyError "student_id"))
    ∧ (fbOk kvs → ∀ a b, jlookup kvs "tma_id" = some a →
        jlookup kvs "student_id" = some b → jlookup kvs "score" = none →
        from_dict (.obj kvs) = .error (.keyError "score"))
    ∧ (fbOk kvs → ∀ a b c, jlookup kvs "tma_id" = some a →
        jlookup kvs "student_id" = some b → jlookup kvs "score" = some c →
        jlookup kvs "grade" = none →
        from_dict (.obj kvs) = .error (.keyError "grade"))
    ∧ (fbOk kvs → ∀ a b c d, jlookup kvs "tma_id" = some a →
        jlookup kvs "student_id" = some b → jlookup kvs "score" = some c →
        jlookup kvs "grade" = some d → jlookup kvs "marked_at" = none →
        from_dict (.obj kvs) = .error (.keyError "marked_at")) := by
  refine ⟨?_, ?_, ?_, ?_, ?_, ?_, ?_⟩
  · intro hfb a b c d e ha hb hc hd he
    simp [from_dict, pyGetD, jindex, hfb, ha, hb, hc, hd, he, jlookup, except_bind_ok, except_bind_err]
  · intro fk hfb a b c d e ha hb hc hd he
    simp [from_dict, pyGetD, jindex, hfb, ha, hb, hc, hd, he, except_bind_ok, except_bind_err]
  all_goals
    rintro (hfb | ⟨fk, hfb⟩) <;> intros <;>
      simp_all [from_dict, pyGetD, jindex, jlookup, except_bind_ok, except_bind_err]

/-- Witness for C10: defaults applied on a record without feedback, and
`KeyError` on a record without `tma_id`. -/
theorem c10_witness :
    from_dict (.obj [("tma_id", .str "t"), ("student_id", .str "s"), ("score", .num 1),
        ("grade", .str "A"), ("marked_at", .str "d")]) =
      .ok ⟨.str "t", .str "s", .num 1, .str "A",
        ⟨.str "", .arr [], .arr [], .arr []⟩, .str "d"⟩
    ∧ from_dict (.obj [("student_id", .str "s")]) = .error (.keyError "tma_id") :=
  ⟨(c10_from_dict_asymmetry [("tma_id", .str "t"), ("student_id", .str "s"),
      ("score", .num 1), ("grade", .str "A"), ("marked_at", .str "d")]).1 rfl
      (.str "t") (.str "s") (.num 1) (.str "A") (.str "d") rfl rfl rfl rfl rfl,
   (c10_from_dict_asymmetry [("student_id", .str "s")]).2.2.1 (Or.inl rfl) rfl⟩

/-! ### Claim C3 -/

/-- Counterexample to C3 as stated: formatting a record that lacks the
required `student_id` field raises `KeyError` instead of substituting
an empty string. -/
theorem c3_counterexample :
    format_feedback "markdown" recNoSid = .error (.keyError "student_id") := rfl

/-- C3 amended: on a record missing `student_id` (with a string
`marked_at`, the field the LaTeX template reads first), the markdown,
html, plain and latex styles all raise `KeyError student_id`; only the
json style succeeds, serializing whatever is present. -/
theorem c3_missing_field_raises (kvs : List (String × JVal)) (m : String)
    (hsid : jlookup kvs "student_id" = none)
    (hmark : jlookup kvs "marked_at" = some (.str m)) :
    format_feedback "markdown" (.obj kvs) = .error (.keyError "student_id")
    ∧ format_feedback "html" (.obj kvs) = .error (.keyError "student_id")
    ∧ format_feedback "plain" (.obj kvs) = .error (.keyError "student_id")
    ∧ format_feedback "latex" (.obj kvs) = .error (.keyError "student_id")
    ∧ format_feedback "json" (.obj kvs) = .ok (dumps (.obj kvs)) := by
  refine ⟨?_, ?_, ?_, ?_, rfl⟩
  · simp [format_feedback, format_markdown, jindex, hsid, except_bind_ok, except_bind_err]
  · simp [format_feedback, format_html, jindex, hsid, except_bind_ok, except_bind_err]
  · simp [format_feedback, format_plain, jindex, hsid, except_bind_ok, except_bind_err]
  · simp [format_feedback, format_latex, jindex, hsid, hmark, pyConcat, except_bind_ok, except_bind_err]

/-- Witness for C3 (amended) at the fixture record without
`student_id`. -/
theorem c3_witness :
    format_feedback "latex" recNoSid = .error (.keyError "student_id")
    ∧ format_feedback "json" recNoSid = .ok (dumps recNoSid) :=
  ⟨(c3_missing_field_raises kvsNoSid "2026-01-01" rfl rfl).2.2.2.1,
   (c3_missing_field_raises kvsNoSid "2026-01-01" rfl rfl).2.2.2.2⟩

/-! ### Claims C1 and C2: the polling loop -/

/-- One non-terminal poll under the deadline advances the loop by one
iteration. -/
theorem waitLoop_nonterminal_step (polls : Nat → HttpResult) (pi t fuel i : Nat)
    (hnt : nonTerminalResp (polls i)) (ht : ¬ t < i * pi) :
    waitLoop polls pi t (fuel + 1) i = waitLoop polls pi t fuel (i + 1) := by
  obtain ⟨body, hb, hm⟩ := hnt
  cases hg : pyGetOpt body "status" with
  | error e => rw [hg] at hm; exact hm.elim
  | ok o =>
    rw [hg] at hm
    cases o with
    | none => simp only [waitLoop, if_neg ht, hb, hg]
    | some v =>
      cases v with
      | null => simp only [waitLoop, if_neg ht, hb, hg]
      | bool b => simp only [waitLoop, if_neg ht, hb, hg]
      | num n => simp only [waitLoop, if_neg ht, hb, hg]
      | arr xs => simp only [waitLoop, if_neg ht, hb, hg]
      | obj okvs => simp only [waitLoop, if_neg ht, hb, hg]
      | str s =>
        have hm' : s ≠ "completed" ∧ s ≠ "failed" := hm
        simp only [waitLoop, if_neg ht, hb, hg, if_neg hm'.1, if_neg hm'.2]

/-- Repeated non-terminal polls under the deadline advance the loop by
`d` iterations, consuming `d` units of fuel. -/
theorem waitLoop_advance (polls : Nat → HttpResult) (pi t : Nat) :
    ∀ (d i fuel : Nat), (∀ j, i ≤ j → j < i + d → nonTerminalResp (polls j)) →
      (i + d) * pi ≤ t →
      waitLoop polls pi t (fuel + d) i = waitLoop polls pi t fuel (i + d) := by
  intro d
  induction d with
  | zero => intro i fuel _ _; rfl
  | succ d ih =>
    intro i fuel hnt ht
    have h0 : nonTerminalResp (polls i) := hnt i le_rfl (by omega)
    have hti : ¬ t < i * pi := by
      have hmono : i * pi ≤ (i + (d + 1)) * pi := Nat.mul_le_mul_right pi (by omega)
      omega
    have step : waitLoop polls pi t ((fuel + d) + 1) i = waitLoop polls pi t (fuel + d) (i + 1) :=
      waitLoop_nonterminal_step polls pi t (fuel + d) i h0 hti
    have rest : waitLoop polls pi t (fuel + d) (i + 1) = waitLoop polls pi t fuel ((i + 1) + d) :=
      ih (i + 1) fuel (fun j hj1 hj2 => hnt j (by omega) (by omega))
        (by rw [show i + 1 + d = i + (d + 1) by omega]; exact ht)
    rw [show fuel + (d + 1) = (fuel + d) + 1 by omega, step, rest,
      show i + 1 + d = i + (d + 1) by omega]

/-- Counterexample to C1 as stated: with `poll_interval=5, timeout=1`
against a server that never transitions, the timeout is raised at
idealised elapsed time 5 — one full poll interval — not within 1
second. -/
theorem c1_counterexample :
    wait_for_completion pendingServer 5 (some 1) 300 10 =
      .raised (.awapTimeout "Job did not complete within 1 seconds") 1 5
    ∧ ¬(5 ≤ 1) := ⟨rfl, by omega⟩

/-- C1 amended: against a server that never reports a terminal status,
`wait_for_completion` with `poll_interval=5, timeout=1` raises the
timeout only at the second iteration, after one full poll interval
(elapsed time 5, one poll issued), because the deadline check precedes
the sleep rather than interrupting it. -/
theorem c1_timeout_after_full_poll_interval (polls : Nat → HttpResult) (ct fuel : Nat)
    (hnt : ∀ k, nonTerminalResp (polls k)) (hf : 2 ≤ fuel) :
    wait_for_completion polls 5 (some 1) ct fuel =
      .raised (.awapTimeout "Job did not complete within 1 seconds") 1 5 := by
  obtain ⟨f, rfl⟩ : ∃ f, fuel = (f + 1) + 1 := ⟨fuel - 2, by omega⟩
  unfold wait_for_completion
  have heff : effTimeout (some 1) ct = 1 := by simp [effTimeout]
  rw [heff, waitLoop_nonterminal_step polls 5 1 (f + 1) 0 (hnt 0) (by omega)]
  rfl

/-- Witness for C1 (amended) against the never-transitioning server. -/
theorem c1_witness :
    wait_for_completion pendingServer 5 (some 1) 300 10 =
      .raised (.awapTimeout "Job did not complete within 1 seconds") 1 5 :=
  c1_timeout_after_full_poll_interval pendingServer 300 10
    (fun _ => ⟨.obj [("status", .str "running")], rfl, by exact ⟨by decide, by decide⟩⟩)
    (by omega)

/-- Counterexample to C2 as stated: a `failed` poll with remote error
message `disk error` raises `AwapAPIError` whose message is
`Job failed: disk error`, which is not the remote message verbatim. -/
theorem c2_counterexample :
    wait_for_completion failedServer 5 (some 60) 300 10 =
      .raised (.awapAPIError "Job failed: disk error" none) 1 0
    ∧ "Job failed: disk error" ≠ "disk error" := ⟨rfl, by decide⟩

/-- C2 amended: when the i-th poll (after non-terminal ones, within the
deadline) reports `failed` with error string `emsg`,
`wait_for_completion` raises `AwapAPIError` whose message is the
remote message prefixed by `Job failed: ` — the remote text is
surfaced, but not verbatim as the whole message. -/
theorem c2_failed_error_is_prefixed (polls : Nat → HttpResult) (pi : Nat)
    (tArg : Option Nat) (ct fuel i : Nat) (emsg : String)
    (hpre : ∀ j, j < i → nonTerminalResp (polls j))
    (hfail : failedRespWith (polls i) emsg)
    (ht : i * pi ≤ effTimeout tArg ct)
    (hfuel : i < fuel) :
    wait_for_completion polls pi tArg ct fuel =
      .raised (.awapAPIError ("Job failed: " ++ emsg) none) (i + 1) (i * pi) := by
  obtain ⟨f, rfl⟩ : ∃ f, fuel = (f + 1) + i := ⟨fuel - 1 - i, by omega⟩
  unfold wait_for_completion
  rw [waitLoop_advance polls pi _ i 0 (f + 1)
    (fun j _ hj2 => hpre j (by omega)) (by simpa using ht)]
  rw [Nat.zero_add]
  obtain ⟨kvs, hb, hst, herr⟩ := hfail
  have hnc : ¬(("failed" : String) = "completed") := by decide
  rw [waitLoop, if_neg (by omega), hb]
  simp only [pyGetOpt, hst, hnc, ite_false, ite_true, eq_self_iff_true, pyGetD, herr]
  rfl

/-- Witness for C2 (amended) against the failing server. -/
theorem c2_witness :
    wait_for_completion failedServer 5 (some 60) 300 10 =
      .raised (.awapAPIError ("Job failed: " ++ "disk error") none) (0 + 1) (0 * 5) :=
  c2_failed_error_is_prefixed failedServer 5 (some 60) 300 10 0 "disk error"
    (fun j hj => absurd hj (by omega))
    ⟨[("status", .str "failed"), ("error", .str "disk error")], rfl, rfl, rfl⟩
    (by decide) (by omega)

/-! ### Claim C7: serializer/parser round trip

Infrastructure: whitespace, digit runs, string escapes, then the mutual
inversion of `pVal`/`pItems`/`pFields` against `dumpVal`/`dumpItems`/
`dumpFields`. -/

/-- Dropping whitespace passes over a space. -/
theorem dropWs_space (cs : List Char) : dropWs (' ' :: cs) = dropWs cs := by
  simp [dropWs, isWsC]

/-- Dropping whitespace passes over a newline. -/
theorem dropWs_nl (cs : List Char) : dropWs ('\n' :: cs) = dropWs cs := by
  simp [dropWs, isWsC]

/-- Dropping whitespace passes over any run of spaces. -/
theorem dropWs_replicate (m : Nat) (cs : List Char) :
    dropWs (List.replicate m ' ' ++ cs) = dropWs cs := by
  induction m with
  | zero => rfl
  | succ k ih => simpa [List.replicate_succ, dropWs_space] using ih

/-- Dropping whitespace passes over indentation. -/
theorem dropWs_indent (n : Nat) (cs : List Char) :
    dropWs (indentC n ++ cs) = dropWs cs := by
  simp [indentC, dropWs_replicate]

/-- Dropping whitespace stops at a non-whitespace head. -/
theorem dropWs_stop {c : Char} (cs : List Char) (h : isWsC c = false) :
    dropWs (c :: cs) = c :: cs := by
  simp [dropWs, h]

/-- Dropping whitespace is idempotent. -/
theorem dropWs_idem (cs : List Char) : dropWs (dropWs cs) = dropWs cs := by
  induction cs with
  | nil => rfl
  | cons c cs ih =>
    by_cases h : isWsC c = true
    · simp [dropWs, h, ih]
    · simp only [Bool.not_eq_true] at h
      rw [dropWs_stop cs h, dropWs_stop cs h]

/-- The value parser only looks at its input through `dropWs`. -/
theorem pVal_congr (fuel : Nat) (cs cs' : List Char) (h : dropWs cs = dropWs cs') :
    pVal fuel cs = pVal fuel cs' := by
  cases fuel with
  | zero => rfl
  | succ f => simp only [pVal, h]

/-- The item parser only looks at its input through `dropWs` (its first
action is `pVal`). -/
theorem pItems_congr (fuel : Nat) (cs cs' : List Char) (h : dropWs cs = dropWs cs') :
    pItems fuel cs = pItems fuel cs' := by
  cases fuel with
  | zero => rfl
  | succ f => simp only [pItems, pVal_congr f cs cs' h]

/-- The member parser only looks at its input through `dropWs`. -/
theorem pFields_congr (fuel : Nat) (cs cs' : List Char) (h : dropWs cs = dropWs cs') :
    pFields fuel cs = pFields fuel cs' := by
  cases fuel with
  | zero => rfl
  | succ f => simp only [pFields, h]

/-- A digit character is not whitespace, not a structural character,
not a sign, and not a letter that starts a keyword. -/
theorem digit_facts (c : Char) (h : isDigitC c = true) :
    isWsC c = false ∧ c ≠ ']' ∧ c ≠ rbraceC ∧ c ≠ '-' ∧ c ≠ 'n' ∧ c ≠ 't'
    ∧ c ≠ 'f' ∧ c ≠ quoteC ∧ c ≠ '[' ∧ c ≠ lbraceC ∧ c ≠ ',' := by
  have hn : 48 ≤ c.toNat ∧ c.toNat ≤ 57 := by simpa [isDigitC] using h
  refine ⟨?_, ?_, ?_, ?_, ?_, ?_, ?_, ?_, ?_, ?_, ?_⟩
  · have h32 : c.toNat ≠ 32 := by omega
    have h10 : c.toNat ≠ 10 := by omega
    have h9 : c.toNat ≠ 9 := by omega
    have h13 : c.toNat ≠ 13 := by omega
    simp [isWsC, h32, h10, h9, h13]
  all_goals intro hEq; subst hEq; exact absurd h (by decide)

/-- The digit character of `k < 10` is a digit. -/
theorem digitChar_isDigit (k : Nat) (h : k < 10) : isDigitC (Nat.digitChar k) = true := by
  interval_cases k <;> decide

/-- The digit character of `k < 10` carries the value `k`. -/
theorem digitChar_val (k : Nat) (h : k < 10) : (Nat.digitChar k).toNat - 48 = k := by
  interval_cases k <;> decide

/-- Last-digit-first unfolding of `natDigs`. -/
theorem natDigs_unfold (n : Nat) :
    natDigs n = (if n < 10 then [] else natDigs (n / 10)) ++ [Nat.digitChar (n % 10)] := by
  rw [natDigs]
  by_cases h : n < 10
  · simp [h, Nat.mod_eq_of_lt h]
  · simp [h]

/-- A digit run is never empty. -/
theorem natDigs_ne_nil (n : Nat) : natDigs n ≠ [] := by
  rw [natDigs_unfold]; simp

/-- Every character of a digit run is a digit. -/
theorem natDigs_digits (n : Nat) : ∀ c ∈ natDigs n, isDigitC c = true := by
  induction n using Nat.strong_induction_on with
  | _ n ih =>
    rw [natDigs_unfold]
    intro c hc
    rcases List.mem_append.mp hc with hmem | hmem
    · by_cases h10 : n < 10
      · simp [h10] at hmem
      · exact ih (n / 10) (Nat.div_lt_self (by omega) (by omega)) c
          (by simpa [h10] using hmem)
    · rw [List.mem_singleton] at hmem
      subst hmem
      exact digitChar_isDigit _ (Nat.mod_lt _ (by omega))

/-- Appending one digit multiplies the accumulated value by ten. -/
theorem digsVal_snoc (xs : List Char) (d : Char) :
    digsVal (xs ++ [d]) = digsVal xs * 10 + (d.toNat - 48) := by
  simp [digsVal, List.foldl_append]

/-- The numeric value of a rendered digit run is the number itself. -/
theorem digsVal_natDigs (n : Nat) : digsVal (natDigs n) = n := by
  induction n using Nat.strong_induction_on with
  | _ n ih =>
    rw [natDigs_unfold, digsVal_snoc]
    by_cases h10 : n < 10
    · simp only [if_pos h10]
      rw [digitChar_val _ (Nat.mod_lt _ (by omega))]
      simp [digsVal]
      omega
    · simp only [if_neg h10]
      rw [ih (n / 10) (Nat.div_lt_self (by omega) (by omega)),
        digitChar_val _ (Nat.mod_lt _ (by omega))]
      omega

/-- `takeDigs` takes nothing from a non-digit-headed input. -/
theorem takeDigs_stop (cs : List Char) (h : numOk cs = true) : takeDigs cs = ([], cs) := by
  cases cs with
  | nil => rfl
  | cons c cs =>
    have hc : isDigitC c = false := by simpa [numOk] using h
    simp [takeDigs, hc]

/-- `takeDigs` splits a digit run from a non-digit remainder. -/
theorem takeDigs_run (ds : List Char) (hds : ∀ c ∈ ds, isDigitC c = true)
    (rest : List Char) (hrest : numOk rest = true) :
    takeDigs (ds ++ rest) = (ds, rest) := by
  induction ds with
  | nil => simpa using takeDigs_stop rest hrest
  | cons d ds ih =>
    have hd : isDigitC d = true := hds d (by simp)
    have ht := ih (fun x hx => hds x (by simp [hx]))
    simp [takeDigs, hd, ht]

/-- The number parser inverts the integer renderer whenever the
remainder cannot extend the digit run. -/
theorem pNum_intChars (i : Int) (rest : List Char) (hrest : numOk rest = true) :
    pNum (intChars i ++ rest) = some (i, rest) := by
  by_cases hneg : i < 0
  · have harg : intChars i ++ rest = '-' :: (natDigs i.natAbs ++ rest) := by
      simp [intChars, hneg]
    obtain ⟨d, ds, hd⟩ : ∃ d ds, natDigs i.natAbs = d :: ds := by
      cases hnd : natDigs i.natAbs with
      | nil => exact absurd hnd (natDigs_ne_nil _)
      | cons d ds => exact ⟨d, ds, rfl⟩
    rw [harg]
    simp only [pNum, if_pos rfl]
    rw [takeDigs_run _ (natDigs_digits _) _ hrest, hd]
    have hv : digsVal (d :: ds) = i.natAbs := by rw [← hd, digsVal_natDigs]
    simp only [hv, ite_true, Option.some.injEq, Prod.mk.injEq]
    refine ⟨?_, trivial⟩
    rw [show Int.ofNat i.natAbs = (i.natAbs : Int) from rfl]
    omega
  · obtain ⟨d, ds, hd⟩ : ∃ d ds, natDigs i.natAbs = d :: ds := by
      cases hnd : natDigs i.natAbs with
      | nil => exact absurd hnd (natDigs_ne_nil _)
      | cons d ds => exact ⟨d, ds, rfl⟩
    have hdig : isDigitC d = true := natDigs_digits _ d (hd ▸ List.mem_cons_self _ _)
    have hdm : d ≠ '-' := (digit_facts d hdig).2.2.2.1
    have harg : intChars i ++ rest = d :: (ds ++ rest) := by
      simp [intChars, hneg, hd]
    rw [harg]
    simp only [pNum, if_neg hdm]
    have htd : takeDigs (d :: (ds ++ rest)) = (d :: ds, rest) := by
      have := takeDigs_run (d :: ds) (by rw [← hd]; exact natDigs_digits _) rest hrest
      simpa using this
    rw [htd]
    have hv : digsVal (d :: ds) = i.natAbs := by rw [← hd, digsVal_natDigs]
    simp only [hv, Option.some.injEq, Prod.mk.injEq]
    refine ⟨?_, trivial⟩
    rw [show Int.ofNat i.natAbs = (i.natAbs : Int) from rfl]
    omega

/-- Lowercase hex digits decode to their values. -/
theorem hexValC_hexLower (k : Nat) (h : k < 16) : hexValC (hexLowerChar k) = some k := by
  interval_cases k <;> decide

/-- Parsing one escaped character undoes `escJChar`. -/
theorem pStrBody_esc (c : Char) (acc rest : List Char) :
    pStrBody acc (escJChar c ++ rest) = pStrBody (c :: acc) rest := by
  by_cases h1 : c = quoteC
  · subst h1
    rw [show escJChar quoteC = [backslashC, quoteC] from by decide,
      List.cons_append, List.cons_append, List.nil_append, pStrBody.eq_def]
    simp +decide [unescC]
  · by_cases h2 : c = backslashC
    · subst h2
      rw [show escJChar backslashC = [backslashC, backslashC] from by decide,
        List.cons_append, List.cons_append, List.nil_append, pStrBody.eq_def]
      simp +decide [unescC]
    · by_cases h3 : c = Char.ofNat 10
      · subst h3
        rw [show escJChar (Char.ofNat 10) = [backslashC, 'n'] from by decide,
          List.cons_append, List.cons_append, List.nil_append, pStrBody.eq_def]
        simp +decide [unescC]
      · by_cases h4 : c = Char.ofNat 9
        · subst h4
          rw [show escJChar (Char.ofNat 9) = [backslashC, 't'] from by decide,
            List.cons_append, List.cons_append, List.nil_append, pStrBody.eq_def]
          simp +decide [unescC]
        · by_cases h5 : c = Char.ofNat 13
          · subst h5
            rw [show escJChar (Char.ofNat 13) = [backslashC, 'r'] from by decide,
              List.cons_append, List.cons_append, List.nil_append, pStrBody.eq_def]
            simp +decide [unescC]
          · by_cases h6 : c = Char.ofNat 8
            · subst h6
              rw [show escJChar (Char.ofNat 8) = [backslashC, 'b'] from by decide,
                List.cons_append, List.cons_append, List.nil_append, pStrBody.eq_def]
              simp +decide [unescC]
            · by_cases h7 : c = Char.ofNat 12
              · subst h7
                rw [show escJChar (Char.ofNat 12) = [backslashC, 'f'] from by decide,
                  List.cons_append, List.cons_append, List.nil_append, pStrBody.eq_def]
                simp +decide [unescC]
              · by_cases h8 : c.toNat < 32
                · have hhi : c.toNat / 16 < 16 := by omega
                  have hlo : c.toNat % 16 < 16 := by omega
                  have harith : ((0 * 16 + 0) * 16 + c.toNat / 16) * 16 + c.toNat % 16
                      = c.toNat := by omega
                  have harith2 : c.toNat / 16 * 16 + c.toNat % 16 = c.toNat := by omega
                  simp only [escJChar, if_neg h1, if_neg h2, if_neg h3, if_neg h4,
                    if_neg h5, if_neg h6, if_neg h7, if_pos h8, List.cons_append,
                    List.nil_append]
                  rw [pStrBody.eq_def]
                  simp +decide [hexValC_hexLower _ hhi, hexValC_hexLower _ hlo,
                    (show hexValC ('0') = some 0 from by decide), harith, harith2,
                    Char.ofNat_toNat]
                · simp only [escJChar, if_neg h1, if_neg h2, if_neg h3, if_neg h4,
                    if_neg h5, if_neg h6, if_neg h7, if_neg h8, List.cons_append,
                    List.nil_append]
                  rw [pStrBody.eq_def]
                  simp [h1, h2, h8]

/-- Parsing an escaped run stops exactly at the closing quote and
recovers the characters. -/
theorem pStrBody_escList (cs : List Char) : ∀ acc rest,
    pStrBody acc (escJList cs ++ (quoteC :: rest))
      = some (String.mk (acc.reverse ++ cs), rest) := by
  induction cs with
  | nil =>
    intro acc rest
    simp only [escJList, List.nil_append]
    rw [pStrBody.eq_def]
    simp +decide
  | cons c cs ih =>
    intro acc rest
    rw [escJList, List.append_assoc, pStrBody_esc, ih (c :: acc) rest]
    simp

/-- Rendered output begins with a non-whitespace character that closes
nothing. -/
theorem dumpVal_head (v : JVal) (lvl : Nat) :
    ∃ c t, dumpVal v lvl = c :: t ∧ isWsC c = false ∧ c ≠ ']' ∧ c ≠ rbraceC := by
  rcases v with _ | (_ | _) | n | s | (_ | ⟨x, xs⟩) | (_ | ⟨⟨k, v⟩, kvs⟩)
  · exact ⟨'n', _, rfl, by decide⟩
  · exact ⟨'f', _, rfl, by decide⟩
  · exact ⟨'t', _, rfl, by decide⟩
  pick_goal 2
  · exact ⟨quoteC, _, rfl, by decide⟩
  pick_goal 2
  · exact ⟨'[', _, rfl, by decide⟩
  pick_goal 2
  · exact ⟨'[', _, rfl, by decide⟩
  pick_goal 2
  · exact ⟨lbraceC, _, rfl, by decide⟩
  pick_goal 2
  · exact ⟨lbraceC, _, rfl, by decide⟩
  · rcases lt_or_le n 0 with hneg | hpos
    · refine ⟨'-', natDigs n.natAbs, ?_, by decide⟩
      simp [dumpVal, intChars, hneg]
    · obtain ⟨d, ds, hd⟩ : ∃ d ds, natDigs n.natAbs = d :: ds := by
        cases hnd : natDigs n.natAbs with
        | nil => exact absurd hnd (natDigs_ne_nil _)
        | cons d ds => exact ⟨d, ds, rfl⟩
      have hdig : isDigitC d = true := natDigs_digits _ d (hd ▸ List.mem_cons_self _ _)
      obtain ⟨hws, hbr, hbc, _⟩ := digit_facts d hdig
      refine ⟨d, ds, ?_, hws, hbr, hbc⟩
      simp [dumpVal, intChars, not_lt.mpr hpos, hd]

/-- Rendered output is never empty. -/
theorem dumpVal_len_pos (v : JVal) (lvl : Nat) : 1 ≤ (dumpVal v lvl).length := by
  obtain ⟨c, t, hct, _⟩ := dumpVal_head v lvl
  simp [hct]

/-- The remainder after serialized items (a separator or the closing
line) can never extend a number. -/
theorem numOk_dumpItems (xs : List JVal) (lvl : Nat) (z : List Char) :
    numOk (dumpItems xs lvl ++ ('\n' :: z)) = true := by
  cases xs with
  | nil => simp [dumpItems, numOk, isDigitC]
  | cons y ys => simp [dumpItems, numOk, isDigitC]

/-- The remainder after serialized members can never extend a number. -/
theorem numOk_dumpFields (kvs : List (String × JVal)) (lvl : Nat) (z : List Char) :
    numOk (dumpFields kvs lvl ++ ('\n' :: z)) = true := by
  cases kvs with
  | nil => simp [dumpFields, numOk, isDigitC]
  | cons kv kvs => obtain ⟨k, v⟩ := kv; simp [dumpFields, numOk, isDigitC]

/-- The value parser accepts a rendered `null`. -/
theorem pVal_null (f : Nat) (rest : List Char) :
    pVal (f + 1) ('n' :: 'u' :: 'l' :: 'l' :: rest) = some (.null, rest) := by
  rw [pVal, dropWs_stop _ (by decide)]
  simp +decide

/-- The value parser accepts a rendered `true`. -/
theorem pVal_true (f : Nat) (rest : List Char) :
    pVal (f + 1) ('t' :: 'r' :: 'u' :: 'e' :: rest) = some (.bool true, rest) := by
  rw [pVal, dropWs_stop _ (by decide)]
  simp +decide

/-- The value parser accepts a rendered `false`. -/
theorem pVal_false (f : Nat) (rest : List Char) :
    pVal (f + 1) ('f' :: 'a' :: 'l' :: 's' :: 'e' :: rest) = some (.bool false, rest) := by
  rw [pVal, dropWs_stop _ (by decide)]
  simp +decide

/-- The value parser accepts a rendered string literal. -/
theorem pVal_str (f : Nat) (s : String) (rest : List Char) :
    pVal (f + 1) (jquote s ++ rest) = some (.str s, rest) := by
  have harg : jquote s ++ rest = quoteC :: (escJList s.data ++ (quoteC :: rest)) := by
    simp [jquote, String.toList]
  rw [harg, pVal, dropWs_stop _ (by decide)]
  simp +decide [pStrBody_escList s.data [] rest, (show String.mk s.data = s from rfl)]

/-- The value parser accepts a rendered integer whenever the remainder
cannot extend it. -/
theorem pVal_int (f : Nat) (i : Int) (rest : List Char) (hrest : numOk rest = true) :
    pVal (f + 1) (intChars i ++ rest) = some (.num i, rest) := by
  by_cases hneg : i < 0
  · have harg : intChars i ++ rest = '-' :: (natDigs i.natAbs ++ rest) := by
      simp [intChars, hneg]
    have hpn : pNum ('-' :: (natDigs i.natAbs ++ rest)) = some (i, rest) := by
      rw [← harg]
      exact pNum_intChars i rest hrest
    rw [harg, pVal, dropWs_stop _ (by decide)]
    simp +decide [hpn]
  · obtain ⟨d, ds, hd⟩ : ∃ d ds, natDigs i.natAbs = d :: ds := by
      cases hnd : natDigs i.natAbs with
      | nil => exact absurd hnd (natDigs_ne_nil _)
      | cons d ds => exact ⟨d, ds, rfl⟩
    have hdig : isDigitC d = true := natDigs_digits _ d (hd ▸ List.mem_cons_self _ _)
    obtain ⟨hws, _, _, hminus, hn, ht, hf2, hq, hlb, hob, _⟩ := digit_facts d hdig
    have harg : intChars i ++ rest = d :: (ds ++ rest) := by
      simp [intChars, hneg, hd]
    have hpn : pNum (d :: (ds ++ rest)) = some (i, rest) := by
      rw [← harg]
      exact pNum_intChars i rest hrest
    rw [harg, pVal, dropWs_stop _ hws]
    simp only [if_neg hn, if_neg ht, if_neg hf2, if_neg hq,
      if_neg (show ¬(d = '[') from hlb), if_neg (show ¬(d = lbraceC) from hob),
      hpn]
    simp [hdig]

/-- The value parser accepts a rendered empty array. -/
theorem pVal_arr_nil (f lvl : Nat) (rest : List Char) :
    pVal (f + 1) (dumpVal (.arr []) lvl ++ rest) = some (.arr [], rest) := by
  simp only [dumpVal]
  rw [show (['[', ']'] ++ rest : List Char) = '[' :: (']' :: rest) from rfl,
    pVal, dropWs_stop _ (by decide)]
  simp +decide [show dropWs (']' :: rest) = ']' :: rest from dropWs_stop _ (by decide)]

/-- The value parser accepts a rendered empty object. -/
theorem pVal_obj_nil (f lvl : Nat) (rest : List Char) :
    pVal (f + 1) (dumpVal (.obj []) lvl ++ rest) = some (.obj [], rest) := by
  simp only [dumpVal]
  rw [show ([lbraceC, rbraceC] ++ rest : List Char) = lbraceC :: (rbraceC :: rest) from rfl,
    pVal, dropWs_stop _ (by decide)]
  simp +decide [show dropWs (rbraceC :: rest) = rbraceC :: rest from dropWs_stop _ (by decide)]

/-- The value parser's array branch defers to the item parser when the
contents do not start with a closing bracket. -/
theorem pVal_arr_go (f : Nat) (R : List Char) (c2 : Char) (r2 : List Char)
    (hR : dropWs R = c2 :: r2) (hne : c2 ≠ ']') :
    pVal (f + 1) ('[' :: R) =
      (match pItems f R with
       | some (xs, r3) => some (.arr xs, r3)
       | none => none) := by
  rw [pVal, dropWs_stop _ (by decide)]
  simp +decide [hR, hne]

/-- The value parser's object branch defers to the member parser when
the contents do not start with a closing brace. -/
theorem pVal_obj_go (f : Nat) (R : List Char) (c2 : Char) (r2 : List Char)
    (hR : dropWs R = c2 :: r2) (hne : c2 ≠ rbraceC) :
    pVal (f + 1) (lbraceC :: R) =
      (match pFields f R with
       | some (kvs, r3) => some (.obj kvs, r3)
       | none => none) := by
  rw [pVal, dropWs_stop _ (by decide)]
  simp +decide [hR, hne]

mutual
/-- Parsing a serialized value consumes exactly the serialized text
and recovers the value, for any fuel above the text length and any
remainder that cannot extend a number. -/
theorem rt_val : ∀ (v : JVal) (lvl fuel : Nat) (rest : List Char),
    (dumpVal v lvl).length < fuel → numOk rest = true →
    pVal fuel (dumpVal v lvl ++ rest) = some (v, rest)
  | .null, lvl, fuel, rest, hf, _ => by
      cases fuel with
      | zero => exact absurd hf (Nat.not_lt_zero _)
      | succ f => simp only [dumpVal, List.cons_append, List.nil_append]; exact pVal_null f rest
  | .bool true, lvl, fuel, rest, hf, _ => by
      cases fuel with
      | zero => exact absurd hf (Nat.not_lt_zero _)
      | succ f => simp only [dumpVal, List.cons_append, List.nil_append]; exact pVal_true f rest
  | .bool false, lvl, fuel, rest, hf, _ => by
      cases fuel with
      | zero => exact absurd hf (Nat.not_lt_zero _)
      | succ f => simp only [dumpVal, List.cons_append, List.nil_append]; exact pVal_false f rest
  | .num n, lvl, fuel, rest, hf, hrest => by
      cases fuel with
      | zero => exact absurd hf (Nat.not_lt_zero _)
      | succ f => simp only [dumpVal]; exact pVal_int f n rest hrest
  | .str s, lvl, fuel, rest, hf, _ => by
      cases fuel with
      | zero => exact absurd hf (Nat.not_lt_zero _)
      | succ f => simp only [dumpVal]; exact pVal_str f s rest
  | .arr [], lvl, fuel, rest, hf, _ => by
      cases fuel with
      | zero => exact absurd hf (Nat.not_lt_zero _)
      | succ f => exact pVal_arr_nil f lvl rest
  | .arr (x :: xs), lvl, fuel, rest, hf, _ => by
      cases fuel with
      | zero => exact absurd hf (Nat.not_lt_zero _)
      | succ f =>
        obtain ⟨c2, t2, hd, hdws, hdbr, _⟩ := dumpVal_head x (lvl + 1)
        have hblen : (dumpVal x (lvl + 1) ++ dumpItems xs (lvl + 1)).length + 1 < f := by
          have hpos := dumpVal_len_pos x (lvl + 1)
          simp only [dumpVal, List.length_cons, List.length_append, indentC,
            List.length_replicate] at hf
          simp only [List.length_append]
          omega
        have harg : dumpVal (.arr (x :: xs)) lvl ++ rest
            = '[' :: ('\n' :: (indentC (lvl + 1) ++ (dumpVal x (lvl + 1)
              ++ (dumpItems xs (lvl + 1) ++ ('\n' :: (indentC lvl ++ (']' :: rest))))))) := by
          simp only [dumpVal]
          simp [List.append_assoc]
        have hdropR : dropWs ('\n' :: (indentC (lvl + 1) ++ (dumpVal x (lvl + 1)
            ++ (dumpItems xs (lvl + 1) ++ ('\n' :: (indentC lvl ++ (']' :: rest)))))))
            = c2 :: (t2 ++ (dumpItems xs (lvl + 1)
              ++ ('\n' :: (indentC lvl ++ (']' :: rest))))) := by
          rw [dropWs_nl, dropWs_indent,
            show dumpVal x (lvl + 1) ++ (dumpItems xs (lvl + 1)
                ++ ('\n' :: (indentC lvl ++ (']' :: rest))))
              = c2 :: (t2 ++ (dumpItems xs (lvl + 1)
                ++ ('\n' :: (indentC lvl ++ (']' :: rest))))) by rw [hd]; simp]
          exact dropWs_stop _ hdws
        have hcong : pItems f ('\n' :: (indentC (lvl + 1) ++ (dumpVal x (lvl + 1)
            ++ (dumpItems xs (lvl + 1) ++ ('\n' :: (indentC lvl ++ (']' :: rest)))))))
            = pItems f (dumpVal x (lvl + 1)
              ++ (dumpItems xs (lvl + 1) ++ ('\n' :: (indentC lvl ++ (']' :: rest))))) := by
          apply pItems_congr
          rw [dropWs_nl, dropWs_indent]
        have hitems := rt_items x xs (lvl + 1) lvl f rest hblen
        rw [harg, pVal_arr_go f _ c2 _ hdropR hdbr, hcong, hitems]
  | .obj [], lvl, fuel, rest, hf, _ => by
      cases fuel with
      | zero => exact absurd hf (Nat.not_lt_zero _)
      | succ f => exact pVal_obj_nil f lvl rest
  | .obj ((k, v) :: kvs), lvl, fuel, rest, hf, _ => by
      cases fuel with
      | zero => exact absurd hf (Nat.not_lt_zero _)
      | succ f =>
        have hblen : (jquote k).length + (dumpVal v (lvl + 1)).length
            + (dumpFields kvs (lvl + 1)).length + 1 < f := by
          have hpos := dumpVal_len_pos v (lvl + 1)
          simp only [dumpVal, List.length_cons, List.length_append, indentC,
            List.length_replicate] at hf
          omega
        have harg : dumpVal (.obj ((k, v) :: kvs)) lvl ++ rest
            = lbraceC :: ('\n' :: (indentC (lvl + 1) ++ (jquote k
              ++ (':' :: (' ' :: (dumpVal v (lvl + 1)
              ++ (dumpFields kvs (lvl + 1)
              ++ ('\n' :: (indentC lvl ++ (rbraceC :: rest)))))))))) := by
          simp only [dumpVal]
          simp [List.append_assoc]
        have hquote : jquote k ++ (':' :: (' ' :: (dumpVal v (lvl + 1)
            ++ (dumpFields kvs (lvl + 1) ++ ('\n' :: (indentC lvl ++ (rbraceC :: rest)))))))
            = quoteC :: (escJList k.data ++ (quoteC :: (':' :: (' ' :: (dumpVal v (lvl + 1)
              ++ (dumpFields kvs (lvl + 1)
              ++ ('\n' :: (indentC lvl ++ (rbraceC :: rest))))))))) := by
          simp [jquote, String.toList]
        have hdropR : dropWs ('\n' :: (indentC (lvl + 1) ++ (jquote k
            ++ (':' :: (' ' :: (dumpVal v (lvl + 1)
            ++ (dumpFields kvs (lvl + 1) ++ ('\n' :: (indentC lvl ++ (rbraceC :: rest))))))))))
            = quoteC :: (escJList k.data ++ (quoteC :: (':' :: (' ' :: (dumpVal v (lvl + 1)
              ++ (dumpFields kvs (lvl + 1)
              ++ ('\n' :: (indentC lvl ++ (rbraceC :: rest))))))))) := by
          rw [dropWs_nl, dropWs_indent, hquote]
          exact dropWs_stop _ (by decide)
        have hcong : pFields f ('\n' :: (indentC (lvl + 1) ++ (jquote k
            ++ (':' :: (' ' :: (dumpVal v (lvl + 1)
            ++ (dumpFields kvs (lvl + 1) ++ ('\n' :: (indentC lvl ++ (rbraceC :: rest))))))))))
            = pFields f (jquote k ++ (':' :: (' ' :: (dumpVal v (lvl + 1)
              ++ (dumpFields kvs (lvl + 1)
              ++ ('\n' :: (indentC lvl ++ (rbraceC :: rest)))))))) := by
          apply pFields_congr
          rw [dropWs_nl, dropWs_indent]
        have hfields := rt_fields k v kvs (lvl + 1) lvl f rest hblen
        rw [harg, pVal_obj_go f _ quoteC _ hdropR (by decide), hcong, hfields]
termination_by _ _ fuel _ _ _ => fuel

/-- Parsing serialized items up to the closing bracket recovers the
item list. -/
theorem rt_items : ∀ (x : JVal) (xs : List JVal) (lvl m fuel : Nat) (rest : List Char),
    (dumpVal x lvl ++ dumpItems xs lvl).length + 1 < fuel →
    pItems fuel (dumpVal x lvl
        ++ (dumpItems xs lvl ++ ('\n' :: (indentC m ++ (']' :: rest)))))
      = some (x :: xs, rest)
  | x, xs, lvl, m, fuel, rest, hf => by
      cases fuel with
      | zero => exact absurd hf (Nat.not_lt_zero _)
      | succ f =>
        have hlx : (dumpVal x lvl).length < f := by
          simp only [List.length_append] at hf
          omega
        have hvx := rt_val x lvl f
          (dumpItems xs lvl ++ ('\n' :: (indentC m ++ (']' :: rest)))) hlx
          (numOk_dumpItems xs lvl _)
        rw [pItems, hvx]
        cases xs with
        | nil =>
          have hdw : dropWs (dumpItems ([] : List JVal) lvl
              ++ ('\n' :: (indentC m ++ (']' :: rest)))) = ']' :: rest := by
            simp only [dumpItems, List.nil_append]
            rw [dropWs_nl, dropWs_indent, dropWs_stop _ (by decide)]
          simp +decide [hdw]
        | cons y ys =>
          have hly : (dumpVal y lvl ++ dumpItems ys lvl).length + 1 < f := by
            have hpos := dumpVal_len_pos x lvl
            simp only [dumpItems, List.length_append, List.length_cons, indentC,
              List.length_replicate] at hf ⊢
            omega
          have hTAIL : dumpItems (y :: ys) lvl ++ ('\n' :: (indentC m ++ (']' :: rest)))
              = ',' :: ('\n' :: (indentC lvl ++ (dumpVal y lvl
                ++ (dumpItems ys lvl ++ ('\n' :: (indentC m ++ (']' :: rest))))))) := by
            simp only [dumpItems]
            simp [List.append_assoc]
          have hcong : pItems f ('\n' :: (indentC lvl ++ (dumpVal y lvl
              ++ (dumpItems ys lvl ++ ('\n' :: (indentC m ++ (']' :: rest)))))))
              = pItems f (dumpVal y lvl
                ++ (dumpItems ys lvl ++ ('\n' :: (indentC m ++ (']' :: rest))))) := by
            apply pItems_congr
            rw [dropWs_nl, dropWs_indent]
          have hrec := rt_items y ys lvl m f rest hly
          have hstop : dropWs (',' :: ('\n' :: (indentC lvl ++ (dumpVal y lvl
              ++ (dumpItems ys lvl ++ ('\n' :: (indentC m ++ (']' :: rest))))))))
              = ',' :: ('\n' :: (indentC lvl ++ (dumpVal y lvl
              ++ (dumpItems ys lvl ++ ('\n' :: (indentC m ++ (']' :: rest))))))) :=
            dropWs_stop _ (by decide)
          simp +decide [hTAIL, hstop, hcong, hrec]
termination_by _ _ _ _ fuel _ _ => fuel

/-- Parsing serialized members up to the closing brace recovers the
member list. -/
theorem rt_fields : ∀ (k : String) (v : JVal) (kvs : List (String × JVal))
    (lvl m fuel : Nat) (rest : List Char),
    (jquote k).length + (dumpVal v lvl).length + (dumpFields kvs lvl).length + 1 < fuel →
    pFields fuel (jquote k ++ (':' :: (' ' :: (dumpVal v lvl
        ++ (dumpFields kvs lvl ++ ('\n' :: (indentC m ++ (rbraceC :: rest))))))))
      = some ((k, v) :: kvs, rest)
  | k, v, kvs, lvl, m, fuel, rest, hf => by
      cases fuel with
      | zero => exact absurd hf (Nat.not_lt_zero _)
      | succ f =>
        have harg : jquote k ++ (':' :: (' ' :: (dumpVal v lvl
            ++ (dumpFields kvs lvl ++ ('\n' :: (indentC m ++ (rbraceC :: rest)))))))
            = quoteC :: (escJList k.data ++ (quoteC :: (':' :: (' ' :: (dumpVal v lvl
              ++ (dumpFields kvs lvl ++ ('\n' :: (indentC m ++ (rbraceC :: rest))))))))) := by
          simp [jquote, String.toList]
        have hlv : (dumpVal v lvl).length < f := by omega
        have hvv := rt_val v lvl f
          (dumpFields kvs lvl ++ ('\n' :: (indentC m ++ (rbraceC :: rest)))) hlv
          (numOk_dumpFields kvs lvl _)
        rw [harg, pFields, dropWs_stop _ (by decide)]
        have hstr : pStrBody [] (escJList k.data ++ (quoteC :: (':' :: (' ' :: (dumpVal v lvl
            ++ (dumpFields kvs lvl ++ ('\n' :: (indentC m ++ (rbraceC :: rest)))))))))
            = some (k, ':' :: (' ' :: (dumpVal v lvl
              ++ (dumpFields kvs lvl ++ ('\n' :: (indentC m ++ (rbraceC :: rest))))))) := by
          rw [pStrBody_escList k.data]
          simp [(show String.mk k.data = k from rfl)]
        have hdcolon : dropWs (':' :: (' ' :: (dumpVal v lvl
            ++ (dumpFields kvs lvl ++ ('\n' :: (indentC m ++ (rbraceC :: rest)))))))
            = ':' :: (' ' :: (dumpVal v lvl
              ++ (dumpFields kvs lvl ++ ('\n' :: (indentC m ++ (rbraceC :: rest)))))) :=
          dropWs_stop _ (by decide)
        have hcongv : pVal f (' ' :: (dumpVal v lvl
            ++ (dumpFields kvs lvl ++ ('\n' :: (indentC m ++ (rbraceC :: rest))))))
            = pVal f (dumpVal v lvl
              ++ (dumpFields kvs lvl ++ ('\n' :: (indentC m ++ (rbraceC :: rest))))) := by
          apply pVal_congr
          rw [dropWs_space]
        rcases kvs with _ | ⟨⟨k2, v2⟩, kvs2⟩
        · have hdw : dropWs (dumpFields ([] : List (String × JVal)) lvl
              ++ ('\n' :: (indentC m ++ (rbraceC :: rest)))) = rbraceC :: rest := by
            simp only [dumpFields, List.nil_append]
            rw [dropWs_nl, dropWs_indent, dropWs_stop _ (by decide)]
          simp +decide [hstr, hdcolon, hcongv, hvv, hdw]
        · have hl2 : (jquote k2).length + (dumpVal v2 lvl).length
              + (dumpFields kvs2 lvl).length + 1 < f := by
            have hpos := dumpVal_len_pos v lvl
            have hqpos : 1 ≤ (jquote k).length := by simp [jquote]
            simp only [dumpFields, List.length_append, List.length_cons, indentC,
              List.length_replicate] at hf ⊢
            omega
          have hTAIL : dumpFields ((k2, v2) :: kvs2) lvl
              ++ ('\n' :: (indentC m ++ (rbraceC :: rest)))
              = ',' :: ('\n' :: (indentC lvl ++ (jquote k2 ++ (':' :: (' ' :: (dumpVal v2 lvl
                ++ (dumpFields kvs2 lvl
                ++ ('\n' :: (indentC m ++ (rbraceC :: rest)))))))))) := by
            simp only [dumpFields]
            simp [List.append_assoc]
          have hcong2 : pFields f ('\n' :: (indentC lvl ++ (jquote k2
              ++ (':' :: (' ' :: (dumpVal v2 lvl ++ (dumpFields kvs2 lvl
                ++ ('\n' :: (indentC m ++ (rbraceC :: rest))))))))))
              = pFields f (jquote k2 ++ (':' :: (' ' :: (dumpVal v2 lvl
                ++ (dumpFields kvs2 lvl
                ++ ('\n' :: (indentC m ++ (rbraceC :: rest)))))))) := by
            apply pFields_congr
            rw [dropWs_nl, dropWs_indent]
          have hrec := rt_fields k2 v2 kvs2 lvl m f rest hl2
          have hstop2 : dropWs (',' :: ('\n' :: (indentC lvl ++ (jquote k2
              ++ (':' :: (' ' :: (dumpVal v2 lvl ++ (dumpFields kvs2 lvl
              ++ ('\n' :: (indentC m ++ (rbraceC :: rest)))))))))))
              = ',' :: ('\n' :: (indentC lvl ++ (jquote k2
              ++ (':' :: (' ' :: (dumpVal v2 lvl ++ (dumpFields kvs2 lvl
              ++ ('\n' :: (indentC m ++ (rbraceC :: rest)))))))))) :=
            dropWs_stop _ (by decide)
          rw [hTAIL] at hstr hdcolon hcongv hvv ⊢
          simp +decide [hstr, hdcolon, hcongv, hvv, hstop2, hcong2, hrec]
termination_by _ _ _ _ _ fuel _ _ => fuel
end

/-- C7: formatting any result record with the json style succeeds, and
deserializing the produced text yields back a structurally identical
record (`json.loads` inverts `json.dumps(..., indent=2)`). -/
theorem c7_json_round_trip (r : JVal) :
    ∃ s, format_feedback "json" r = .ok s ∧ loads s = some r := by
  refine ⟨dumps r, by simp [format_feedback, format_json], ?_⟩
  have h := rt_val r 0 ((dumpVal r 0).length + 1) [] (by omega) rfl
  rw [List.append_nil] at h
  have hdata : (dumps r).data = dumpVal r 0 := rfl
  have hlen : (dumps r).length = (dumpVal r 0).length := rfl
  simp [loads, hdata, hlen, h, dropWs]

end Awap
